import Mathlib

/-!
Verification of the ASRS warehouse-control core (`asrs_lib`): a shallow
embedding of `utils.py` (basket-id normalization), `db.py` (the occupancy
store and queues), and `asrs_mover.py` (command encoding, job selection,
the blocking command cycle and the clear-request reactor), together with
theorems settling the specification's claims about them.
-/

namespace Asrs

/-! ## Decimal rendering (model of Python `str(int)`) -/

/-- The ASCII digit character for `n < 10`. -/
def digitChar (n : Nat) : Char := Char.ofNat (48 + n)

/-- Numeric value of an ASCII digit character. -/
def digitVal (c : Char) : Nat := c.toNat - 48

/-- Decimal digits of `n`, least-significant first; `fuel` bounds recursion. -/
def natDigitsAux (fuel : Nat) (n : Nat) : List Char :=
  match fuel with
  | 0 => []
  | f + 1 => if n < 10 then [digitChar n] else digitChar (n % 10) :: natDigitsAux f (n / 10)

/-- Decimal representation of a natural number (Python `str(n)` for `n ≥ 0`). -/
def natRepr (n : Nat) : String := ⟨(natDigitsAux (n + 1) n).reverse⟩

/-- Decimal representation of an integer (Python `str(n)`). -/
def intRepr (i : Int) : String :=
  match i with
  | .ofNat m => natRepr m
  | .negSucc m => "-" ++ natRepr (m + 1)

/-! ## Python string helpers -/

/-- ASCII whitespace recognized by Python's `str.strip`. -/
def isPySpace (c : Char) : Bool :=
  c = ' ' || c = '\t' || c = '\n' || c = '\r' || c = '\x0b' || c = '\x0c'

/-- Python `str.strip()`. -/
def pyStrip (s : String) : String :=
  ⟨((s.data.dropWhile isPySpace).reverse.dropWhile isPySpace).reverse⟩

/-- Python `str.lower()` restricted to ASCII (enough for `"PUT"`/`"PICK"`). -/
def pyLower (s : String) : String := ⟨s.data.map Char.toLower⟩

/-- Match of the regex `^\d+$` (`_DIGITS` in `utils.py`). -/
def isDigits (s : String) : Bool := !s.data.isEmpty && s.data.all Char.isDigit

/-- Match of the regex `^[bB](\d{1,9})$` (`_BASKET` in `utils.py`). -/
def isBasketFmt (s : String) : Bool :=
  match s.data with
  | [] => false
  | c :: rest =>
      (c = 'b' || c = 'B') && decide (1 ≤ rest.length) && decide (rest.length ≤ 9)
        && rest.all Char.isDigit

/-- Numeric value of an all-digits string (Python `int(s)`). -/
def digitsToNat (s : String) : Nat := s.data.foldl (fun a c => a * 10 + digitVal c) 0

/-- Value of a least-significant-first digit list (proof helper). -/
def valRev : List Char → Nat
  | [] => 0
  | c :: t => digitVal c + 10 * valRev t

/-- Python `f"B{n:09d}"`: `'B'` followed by the decimal digits of `n`,
zero-padded on the left to 9 characters. -/
def mkBasket (n : Nat) : String :=
  "B" ++ ⟨List.replicate (9 - (natRepr n).length) '0'⟩ ++ natRepr n

/-! ## `utils.normalize_basket_id` -/

/-- Model of `utils.normalize_basket_id` on a string input.  Strips the input; an
all-digits string or `'B'`/`'b'` followed by 1–9 digits is converted to the
canonical `'B' + 9 digits` form when its value is at most 999999999 (values
are naturals here, so the source's `0 <= n` lower bound always holds);
anything else raises a `ValueError`, modelled as `Except.error`. -/
def normalize_basket_id (value : String) : Except String String :=
  let s := pyStrip value
  if isDigits s then
    let n := digitsToNat s
    if n ≤ 999999999 then .ok (mkBasket n)
    else .error "basket number must be 0..999999999"
  else if isBasketFmt s then
    let n := digitsToNat ⟨s.data.drop 1⟩
    if n ≤ 999999999 then .ok (mkBasket n)
    else .error "basket number must be 0..999999999"
  else .error "invalid basket id/number format"

/-- Model of `utils.normalize_basket_id` on an integer input: Python applies
`str(value)` first. -/
def normalize_basket_int (value : Int) : Except String String :=
  normalize_basket_id (intRepr value)

/-! ## Command-string encoding (`asrs_mover.py`) -/

/-- Model of `AsrsMover._id4`: `("0000" + str(n))[-4:]`, the last four characters of
the zero-extended decimal representation. -/
def id4 (n : Nat) : String := ⟨(("0000" ++ natRepr n).data.reverse.take 4).reverse⟩

/-- Model of `AsrsMover._d2`: `str(n)` left-padded with one `'0'` when it is a single
character. -/
def d2 (n : Nat) : String :=
  let s := natRepr n
  if s.length > 1 then s else "0" ++ s

/-- The method digit of `AsrsMover.loop`: `"0" if methode == "PUT" else "1"`. -/
def methodDigit (methode : String) : String := if methode = "PUT" then "0" else "1"

/-- The command string built in `AsrsMover.loop`:
`f"{_id4(current_id)}{M}{X}{Y}{Z}{basket_id}"`. -/
def encode_cmd (seq : Nat) (methode : String) (x y z : Nat) (basket : String) : String :=
  id4 seq ++ methodDigit methode ++ d2 x ++ d2 y ++ natRepr z ++ basket

/-- The guard in `AsrsMover.loop`: the encoded command is handed to
`send_job_blocking` only when its length is exactly 20; otherwise the
iteration aborts (`continue`) and nothing is sent. -/
def loop_send (seq : Nat) (methode : String) (x y z : Nat) (basket : String) : Option String :=
  let c := encode_cmd seq methode x y z basket
  if c.length = 20 then some c else none

/-! ## Occupancy store model (`db.py`)

Shelf rows, queue rows and the operation history are modelled as in-memory
lists; each `Pg` method becomes a pure state transformer.  `Pg.transaction`
(commit on normal return, rollback on exception) is reflected by the
`Except` result type: an `.error` result publishes no new state. -/

structure Shelf where
  x : Nat
  y : Nat
  z : Nat
  can_use : Bool
  basket_id : Option String
  active : Bool
deriving DecidableEq, Repr

structure QueueRow where
  id : Nat
  basket : String
  x : Nat
  y : Nat
  z : Nat
  created_at : Nat
deriving DecidableEq, Repr

structure HistoryRow where
  shelf_id : Nat
  basket_id : Option String
  operation_type : String
  status : String
deriving DecidableEq, Repr

structure DbState where
  shelves : List (Nat × Shelf)
  basket_map : List (String × Nat)
  queue_pick : List QueueRow
  queue_put : List QueueRow
  history : List HistoryRow
deriving DecidableEq, Repr

/-- First value bound to `k` in an association list (a keyed `SELECT`). -/
def alookup {α β : Type} [DecidableEq α] (l : List (α × β)) (k : α) : Option β :=
  match l with
  | [] => none
  | (i, v) :: t => if i = k then some v else alookup t k

/-- The update `UPDATE shelf_data SET ... WHERE shelf_id = k`. -/
def updKey (l : List (Nat × Shelf)) (k : Nat) (f : Shelf → Shelf) : List (Nat × Shelf) :=
  l.map (fun q => if q.1 = k then (q.1, f q.2) else q)

/-- The update `UPDATE shelf_data SET ... WHERE <condition on the row>`. -/
def updWhere (l : List (Nat × Shelf)) (p : Shelf → Bool) (f : Shelf → Shelf) :
    List (Nat × Shelf) :=
  l.map (fun q => if p q.2 then (q.1, f q.2) else q)

/-- The clearing update `SET basket_id = NULL, active = FALSE` (update time omitted). -/
def clearedShelf (sh : Shelf) : Shelf := { sh with basket_id := none, active := false }

/-- Model of `Pg.get_mapping_for_basket`: `basket_data` joined with `shelf_data`. -/
def get_mapping_for_basket (db : DbState) (basket_id : String) :
    Option (Nat × Nat × Nat × Nat) :=
  match alookup db.basket_map (pyStrip basket_id) with
  | none => none
  | some sid =>
    match alookup db.shelves sid with
    | none => none
    | some sh => some (sid, sh.x, sh.y, sh.z)

/-- Model of `Pg.shelf_can_use`: `can_use` of the shelf, `false` when it is missing. -/
def shelf_can_use (db : DbState) (shelf_id : Nat) : Bool :=
  match alookup db.shelves shelf_id with
  | none => false
  | some sh => sh.can_use

/-- Model of `Pg.delete_queue_row`: delete by id from `queue_pick` when the method is
`"PICK"`, otherwise from `queue_put`. -/
def delete_queue_row (db : DbState) (methode : String) (row_id : Nat) : DbState :=
  if methode = "PICK" then
    { db with queue_pick := db.queue_pick.filter (fun r => r.id != row_id) }
  else
    { db with queue_put := db.queue_put.filter (fun r => r.id != row_id) }

/-- Python `basket_id.strip() if basket_id else None` applied to a nullable
string: `None` and `""` are falsy and become `NULL`. -/
def pyStripOpt : Option String → Option String
  | none => none
  | some s => if s = "" then none else some (pyStrip s)

/-- Python truthiness of a nullable string (`if old_basket_id:`). -/
def pyTruthyOpt : Option String → Bool
  | none => false
  | some s => !(s == "")

/-- Model of `Pg.mark_shelf_occupied`: write the (stripped, possibly `NULL`) basket
onto the shelf with `active = TRUE` and append a PUT history row. -/
def mark_shelf_occupied (db : DbState) (shelf_id : Nat) (basket_id : Option String) :
    DbState :=
  let b := pyStripOpt basket_id
  { db with
    shelves := updKey db.shelves shelf_id
      (fun sh => { sh with basket_id := b, active := true }),
    history := db.history ++ [⟨shelf_id, b, "PUT", "success"⟩] }

/-- Model of `Pg.mark_shelf_empty`: clear the shelf; append a PICK history row only
when the previous occupant was truthy. -/
def mark_shelf_empty (db : DbState) (shelf_id : Nat) : DbState :=
  let old := (alookup db.shelves shelf_id).bind (fun sh => sh.basket_id)
  { db with
    shelves := updKey db.shelves shelf_id clearedShelf,
    history := db.history ++
      (if pyTruthyOpt old then [⟨shelf_id, old, "PICK", "success"⟩] else []) }

/-- Model of `Pg.mark_pick`: transactionally clear occupancy on the shelf. -/
def mark_pick (db : DbState) (shelf_id : Nat) : DbState :=
  { db with shelves := updKey db.shelves shelf_id clearedShelf }

structure MoveResult where
  cleared_from : List Nat
  placed_to : Nat
deriving DecidableEq, Repr

/-- Model of `Pg.move_put`: inside one transaction, (a) clear every shelf currently
holding the normalized basket, collecting `cleared_from`; (b) fetch the
destination row (`FOR UPDATE`), failing when it does not exist; (c) reject
when it holds a different basket and overwrite is not allowed, or clear it
first when overwrite is allowed; (d) place the basket with `active = TRUE`.
An `.error` result means the transaction rolled back: no state is published. -/
def move_put (db : DbState) (shelf_id : Nat) (basket_id : String)
    (allow_overwrite_dest : Bool) : Except String (DbState × MoveResult) :=
  if basket_id = "" then .error "basket_id is required for move_put"
  else
    match normalize_basket_id basket_id with
    | .error e => .error e
    | .ok bid =>
      let cleared_from :=
        (db.shelves.filter (fun q => q.2.basket_id == some bid)).map (fun q => q.1)
      let s1 := updWhere db.shelves (fun sh => sh.basket_id == some bid) clearedShelf
      match alookup s1 shelf_id with
      | none => .error "shelf_id not in shelf_data"
      | some row =>
        let dest_has_other := row.basket_id.isSome && !(row.basket_id == some bid)
        if dest_has_other && !allow_overwrite_dest then
          .error "destination occupied (allow_overwrite_dest=False)"
        else
          let s2 :=
            if dest_has_other && allow_overwrite_dest then updKey s1 shelf_id clearedShelf
            else s1
          let s3 := updKey s2 shelf_id
            (fun sh => { sh with basket_id := some bid, active := true })
          .ok ({ db with shelves := s3 }, ⟨cleared_from, shelf_id⟩)

/-- The database state observable after a `move_put` call through
`Pg.transaction`: the new state on commit, the unchanged state on rollback. -/
def move_put_state (db : DbState) (shelf_id : Nat) (basket_id : String)
    (allow_overwrite_dest : Bool) : DbState :=
  match move_put db shelf_id basket_id allow_overwrite_dest with
  | .ok (db', _) => db'
  | .error _ => db

/-- The shelf invariant `active == (basket_id != NULL)` of the spec. -/
def shelfInv (sh : Shelf) : Bool := sh.active == sh.basket_id.isSome

/-- The invariant on every shelf of the store. -/
def dbInv (db : DbState) : Bool := db.shelves.all (fun q => shelfInv q.2)

/-! ## Job selection (`AsrsMover._select_next`) -/

/-- A row the scan may return: its basket has a mapping whose shelf is
administratively usable. -/
def eligible (db : DbState) (r : QueueRow) : Bool :=
  match get_mapping_for_basket db r.basket with
  | none => false
  | some m => shelf_can_use db m.1

/-- The `first_usable` scan of `AsrsMover._select_next`: walk the fetched
rows in order; a row with no mapping is deleted from its queue (its id is
collected here, the deletion applied by the caller) and skipped; a row whose
mapped shelf is unusable is skipped and left in place; the first remaining
row is returned with its mapping. -/
def first_usable (db : DbState) (jobs : List QueueRow) :
    Option (QueueRow × (Nat × Nat × Nat × Nat)) × List Nat :=
  match jobs with
  | [] => (none, [])
  | r :: rest =>
    match get_mapping_for_basket db r.basket with
    | none =>
      let o := first_usable db rest
      (o.1, r.id :: o.2)
    | some m =>
      if shelf_can_use db m.1 then (some (r, m), [])
      else first_usable db rest

/-- The queue-row deletions issued during a scan, applied to the state. -/
def applyDeletes (db : DbState) (methode : String) (ids : List Nat) : DbState :=
  ids.foldl (fun d i => delete_queue_row d methode i) db

/-- Model of `AsrsMover._select_next`: fetch the oldest `window_each` rows of each
queue, scan each side with `first_usable`, then pick the side whose
candidate was created first, ties favoring PICK; `none` when neither side
has a candidate.  Also returns the state after the garbage deletions. -/
def select_next (db : DbState) (window_each : Nat) :
    Option (String × QueueRow × (Nat × Nat × Nat × Nat)) × DbState :=
  let picks := db.queue_pick.take window_each
  let puts := db.queue_put.take window_each
  let pres := first_usable db picks
  let qres := first_usable db puts
  let db' := applyDeletes (applyDeletes db "PICK" pres.2) "PUT" qres.2
  match pres.1, qres.1 with
  | some (p, pm), none => (some ("PICK", p, pm), db')
  | none, some (q, qm) => (some ("PUT", q, qm), db')
  | some (p, pm), some (q, qm) =>
    if p.created_at ≤ q.created_at then (some ("PICK", p, pm), db')
    else (some ("PUT", q, qm), db')
  | none, none => (none, db')

/-- Spec-side description of the pick candidate: the first eligible row of
the fetched pick window (the queue lists are kept oldest-first, as delivered
by `ORDER BY created_at ASC`). -/
def pickCandidate (db : DbState) (wnd : Nat) : Option QueueRow :=
  (db.queue_pick.take wnd).find? (eligible db)

/-- Spec-side description of the put candidate. -/
def putCandidate (db : DbState) (wnd : Nat) : Option QueueRow :=
  (db.queue_put.take wnd).find? (eligible db)

/-! ## The blocking command cycle (`AsrsMover.send_job_blocking`)

Device reads and writes are modelled by a `SendWorld` of outcomes: each
flag fixes what the corresponding OPC UA operation does in this execution
(a timed wait's result, or whether a raw `set_value` raises).  The cycle
produces a trace of device/database actions, the final database state, and
either a boolean or the exception that escaped. -/

inductive Ev
  | clearRegs
  | pulseCompleteReply
  | writeCmd (s : String)
  | raiseStrobe
  | dropStrobe
  | deleteQueueRow (methode : String) (id : Nat)
  | commitOccupancy (methode : String) (ok : Bool)
  | serveQr
  | callback (kind basket : String) (success : Bool)
deriving DecidableEq, Repr

inductive DevErr
  | writeRaised
deriving DecidableEq, Repr

structure SendWorld where
  /-- the reads inside `_system_ready` do not raise -/
  statusReadOk : Bool
  ready : Bool
  auto : Bool
  alarm : Bool
  /-- attempt `i` of the pre-send clear loop sees ack and complete low -/
  clearAttemptOk : Nat → Bool
  /-- the command-string write and the strobe raise do not raise -/
  cmdWriteOk : Bool
  /-- the ack line goes true within the 5 s wait -/
  ackOk : Bool
  /-- the strobe-drop write on the ACK-timeout path does not raise -/
  dropStrobeOnTimeoutOk : Bool
  /-- the strobe-drop write just after ACK does not raise -/
  dropStrobeAfterAckOk : Bool
  /-- the complete line goes true within the 120 s wait -/
  completeDone : Bool

/-- Model of `AsrsMover._system_ready`: `ready and auto and not alarm`, `False` when
a read raises. -/
def system_ready (w : SendWorld) : Bool :=
  w.statusReadOk && (w.ready && w.auto && !w.alarm)

/-- The pre-send clear loop (`max_clear_attempts = 3`): each attempt waits
for ack and complete to read false; on failure it force-clears the command
register and pulses the completion reply, then retries. -/
def clearLoop (ok : Nat → Bool) : Nat → Nat → Bool × List Ev
  | _, 0 => (false, [])
  | i, r + 1 =>
    if ok i then (true, [])
    else
      let o := clearLoop ok (i + 1) r
      (o.1, Ev.clearRegs :: Ev.pulseCompleteReply :: o.2)

/-- The whole clearing phase: three attempts starting at attempt 0. -/
def clearPhase (w : SendWorld) : Bool × List Ev := clearLoop w.clearAttemptOk 0 3

/-- Step 3 of the cycle, the fire-and-forget occupancy commit: `move_put`
for PUT (a rejection is caught and makes the job unsuccessful), `mark_pick`
otherwise. -/
def commitStep (db : DbState) (methode : String) (shelf_id : Nat) (basket_id : String) :
    Bool × DbState :=
  if methode = "PUT" then
    match move_put db shelf_id basket_id false with
    | .ok r => (true, r.1)
    | .error _ => (false, db)
  else (true, mark_pick db shelf_id)

structure SendOut where
  ret : Except DevErr Bool
  db : DbState
  events : List Ev
deriving Repr

/-- Model of `AsrsMover.send_job_blocking`, one call under `_send_lock`:
refuse unless the system is ready; clear prior handshake state (abort after
3 failed attempts); write the command string and raise the strobe (abort on
a write failure, swallowed); wait 5 s for ACK (on timeout drop the strobe —
this raw write is *not* guarded — and abort); on ACK delete the queue row,
drop the strobe (also unguarded), commit the occupancy change, serve a
pending QR request, wait up to 120 s for completion, always run the cleanup
pulses, and report `{kind, basket, seconds, success}` to the completion
callback, returning `success`. -/
def send_job_blocking (w : SendWorld) (db : DbState) (cmd_str : String)
    (methode : String) (row_id : Nat) (row_basket : String) (shelf_id : Nat) :
    SendOut :=
  let basket_id := pyStrip row_basket
  if !system_ready w then ⟨.ok false, db, []⟩
  else
    let clr := clearPhase w
    if !clr.1 then ⟨.ok false, db, clr.2⟩
    else if !w.cmdWriteOk then ⟨.ok false, db, clr.2⟩
    else
      let evs1 := clr.2 ++ [Ev.writeCmd cmd_str, Ev.raiseStrobe]
      if !w.ackOk then
        if w.dropStrobeOnTimeoutOk then ⟨.ok false, db, evs1 ++ [Ev.dropStrobe]⟩
        else ⟨.error .writeRaised, db, evs1⟩
      else
        let db1 := delete_queue_row db methode row_id
        let evs2 := evs1 ++ [Ev.deleteQueueRow methode row_id]
        if !w.dropStrobeAfterAckOk then ⟨.error .writeRaised, db1, evs2⟩
        else
          let c := commitStep db1 methode shelf_id basket_id
          let evs4 := evs2 ++ [Ev.dropStrobe, Ev.commitOccupancy methode c.1, Ev.serveQr]
          let evs5 := evs4 ++
            (if w.completeDone then [Ev.pulseCompleteReply, Ev.clearRegs] else [])
          let evs6 := evs5 ++ [Ev.pulseCompleteReply, Ev.clearRegs, Ev.pulseCompleteReply]
          ⟨.ok c.1, c.2, evs6 ++ [Ev.callback (pyLower methode) basket_id c.1]⟩

/-! ## The clear-request reactor (`AsrsMover._monitor_clear_request`) -/

inductive MonEv
  | pulseClearReply
  /-- Event for `_send_lock.acquire(blocking=False)` with its result -/
  | tryAcquire (ok : Bool)
  /-- a lock acquisition that waits for the holder; the reactor never emits it -/
  | blockingAcquire
  | clearRegs
  | releaseLock
deriving DecidableEq, Repr

structure MonWorld where
  /-- the clear-request line reads true (a failed read counts as false) -/
  reqLine : Bool
  /-- the non-blocking acquire of `_send_lock` succeeds -/
  lockFree : Bool
deriving DecidableEq, Repr

/-- One poll iteration of `_monitor_clear_request`, mapping the pending-clear
flag to its new value and the actions taken.  A true request line is answered
by an unconditional clear-reply pulse; the register clear itself runs only
under a successfully try-acquired lock, otherwise the pending flag is set.
A pending flag with the line low is applied opportunistically. -/
def monitor_step (w : MonWorld) (pending : Bool) : Bool × List MonEv :=
  if w.reqLine then
    if w.lockFree then
      (false, [MonEv.pulseClearReply, MonEv.tryAcquire true, MonEv.clearRegs,
        MonEv.releaseLock])
    else (true, [MonEv.pulseClearReply, MonEv.tryAcquire false])
  else
    if pending then
      if w.lockFree then
        (false, [MonEv.tryAcquire true, MonEv.clearRegs, MonEv.releaseLock])
      else (pending, [MonEv.tryAcquire false])
    else (pending, [])

/-! ## Concrete fixtures used by witnesses and counterexamples -/

/-- An empty usable shelf at grid (1,1,0). -/
def wShelfEmpty : Shelf := ⟨1, 1, 0, true, none, false⟩

/-- A shelf occupied by basket `B000000002`. -/
def wShelfB2 : Shelf := ⟨2, 1, 0, true, some "B000000002", true⟩

/-- Two shelves: shelf 1 free, shelf 2 holding `B000000002`. -/
def wDb0 : DbState := ⟨[(1, wShelfEmpty), (2, wShelfB2)], [], [], [], []⟩

/-- State `wDb0` after `move_put` placed `B000000001` on shelf 1. -/
def wDb1 : DbState :=
  ⟨[(1, ⟨1, 1, 0, true, some "B000000001", true⟩), (2, wShelfB2)], [], [], [], []⟩

/-- A one-shelf store satisfying the occupancy invariant. -/
def dbC8 : DbState := ⟨[(1, ⟨1, 1, 0, true, none, false⟩)], [], [], [], []⟩

/-- A pick-queue row created at t=1. -/
def wRowPick : QueueRow := ⟨1, "B000000001", 1, 1, 0, 1⟩

/-- A put-queue row created at t=2. -/
def wRowPut : QueueRow := ⟨2, "B000000002", 2, 1, 0, 2⟩

/-- Two mapped, usable shelves with one eligible row in each queue. -/
def wDb5 : DbState :=
  ⟨[(1, wShelfEmpty), (2, ⟨2, 1, 0, true, none, false⟩)],
    [("B000000001", 1), ("B000000002", 2)], [wRowPick], [wRowPut], []⟩

/-- A pick-queue row whose basket has no static mapping. -/
def wRowGarbage : QueueRow := ⟨3, "B000000009", 1, 1, 0, 1⟩

/-- A store whose only queue row is garbage (basket unmapped). -/
def wDb6 : DbState :=
  ⟨[(1, wShelfEmpty)], [("B000000001", 1)], [wRowGarbage], [], []⟩

/-- A device world where every operation behaves. -/
def wHappy : SendWorld :=
  ⟨true, true, true, false, fun _ => true, true, true, true, true, true⟩

/-- ACK arrives, but the strobe-drop write right after ACK raises. -/
def wAckDropFail : SendWorld :=
  ⟨true, true, true, false, fun _ => true, true, true, true, false, true⟩

/-- The ACK wait times out and the strobe-drop write on that path raises. -/
def wAckTimeoutDropFail : SendWorld :=
  ⟨true, true, true, false, fun _ => true, true, false, false, true, true⟩

/-- The device does not report ready. -/
def wNotReady : SendWorld :=
  ⟨true, false, true, false, fun _ => true, true, true, true, true, true⟩

end Asrs

namespace Asrs

/-! ## Decimal-representation lemmas -/

theorem digitChar_isDigit {n : Nat} (h : n < 10) : (digitChar n).isDigit = true := by
  interval_cases n <;> decide

theorem digitVal_digitChar {n : Nat} (h : n < 10) : digitVal (digitChar n) = n := by
  interval_cases n <;> decide

theorem natDigitsAux_ne_nil (f n : Nat) : natDigitsAux (f + 1) n ≠ [] := by
  unfold natDigitsAux; split <;> simp

theorem natDigitsAux_digits (f : Nat) :
    ∀ n c, c ∈ natDigitsAux f n → c.isDigit = true := by
  induction f with
  | zero => intro n c h; simp [natDigitsAux] at h
  | succ f ih =>
    intro n c h
    simp only [natDigitsAux] at h
    by_cases h10 : n < 10
    · simp [h10] at h; subst h; exact digitChar_isDigit h10
    · simp [h10] at h
      rcases h with h | h
      · subst h; exact digitChar_isDigit (Nat.mod_lt _ (by norm_num))
      · exact ih _ _ h

theorem foldl_digits_reverse (l : List Char) :
    l.reverse.foldl (fun a c => a * 10 + digitVal c) 0 = valRev l := by
  induction l with
  | nil => rfl
  | cons c t ih =>
    simp [List.reverse_cons, List.foldl_append, ih, valRev]
    omega

theorem valRev_natDigitsAux :
    ∀ f n, n < 10 ^ f → valRev (natDigitsAux f n) = n := by
  intro f
  induction f with
  | zero => intro n h; interval_cases n; rfl
  | succ f ih =>
    intro n h
    simp only [natDigitsAux]
    by_cases h10 : n < 10
    · simp [h10, valRev, digitVal_digitChar h10]
    · have hm : n % 10 < 10 := Nat.mod_lt _ (by norm_num)
      have hdiv : n / 10 < 10 ^ f := by
        have : n < 10 ^ f * 10 := by rw [← pow_succ]; exact h
        omega
      simp [h10, valRev, digitVal_digitChar hm, ih _ hdiv]
      omega

theorem digitsToNat_natRepr (n : Nat) : digitsToNat (natRepr n) = n := by
  have hlt : n < 10 ^ (n + 1) :=
    lt_trans (Nat.lt_pow_self (by norm_num) n)
      (Nat.pow_lt_pow_succ (by norm_num))
  calc digitsToNat (natRepr n)
      = (natDigitsAux (n + 1) n).reverse.foldl (fun a c => a * 10 + digitVal c) 0 := rfl
    _ = valRev (natDigitsAux (n + 1) n) := foldl_digits_reverse _
    _ = n := valRev_natDigitsAux (n + 1) n hlt

theorem natRepr_data (n : Nat) : (natRepr n).data = (natDigitsAux (n + 1) n).reverse := rfl

theorem natRepr_ne_nil (n : Nat) : (natRepr n).data ≠ [] := by
  rw [natRepr_data]
  simpa using natDigitsAux_ne_nil n n

theorem natRepr_digits (n : Nat) : ∀ c ∈ (natRepr n).data, c.isDigit = true := by
  intro c hc
  rw [natRepr_data, List.mem_reverse] at hc
  exact natDigitsAux_digits (n + 1) n c hc

theorem isDigit_not_space {c : Char} (h : c.isDigit = true) : isPySpace c = false := by
  by_cases e1 : c = ' '
  · subst e1; exact absurd h (by decide)
  by_cases e2 : c = '\t'
  · subst e2; exact absurd h (by decide)
  by_cases e3 : c = '\n'
  · subst e3; exact absurd h (by decide)
  by_cases e4 : c = '\x0d'
  · subst e4; exact absurd h (by decide)
  by_cases e5 : c = '\x0b'
  · subst e5; exact absurd h (by decide)
  by_cases e6 : c = '\x0c'
  · subst e6; exact absurd h (by decide)
  simp [isPySpace, e1, e2, e3, e4, e5, e6]

theorem dropWhile_of_forall {p : Char → Bool} :
    ∀ l : List Char, (∀ c ∈ l, p c = false) → l.dropWhile p = l
  | [], _ => rfl
  | c :: t, h => by simp [List.dropWhile, h c (by simp)]

theorem pyStrip_no_space (s : String) (h : ∀ c ∈ s.data, isPySpace c = false) :
    pyStrip s = s := by
  unfold pyStrip
  rw [dropWhile_of_forall s.data h,
    dropWhile_of_forall s.data.reverse (fun c hc => h c (List.mem_reverse.mp hc)),
    List.reverse_reverse]

theorem pyStrip_natRepr (n : Nat) : pyStrip (natRepr n) = natRepr n :=
  pyStrip_no_space _ (fun c hc => isDigit_not_space (natRepr_digits n c hc))

theorem isDigits_natRepr (n : Nat) : isDigits (natRepr n) = true := by
  simp [isDigits, natRepr_ne_nil n]
  intro c hc
  exact natRepr_digits n c hc

theorem negRepr_data (m : Nat) : ("-" ++ natRepr m).data = '-' :: (natRepr m).data := rfl

theorem pyStrip_negRepr (m : Nat) : pyStrip ("-" ++ natRepr m) = "-" ++ natRepr m := by
  apply pyStrip_no_space
  intro c hc
  rw [negRepr_data] at hc
  rcases List.mem_cons.mp hc with rfl | hc
  · decide
  · exact isDigit_not_space (natRepr_digits m c hc)

theorem isDigits_negRepr (m : Nat) : isDigits ("-" ++ natRepr m) = false := by
  have h : ('-' : Char).isDigit = false := by decide
  simp [isDigits, negRepr_data, List.all_cons, h]

theorem isBasketFmt_negRepr (m : Nat) : isBasketFmt ("-" ++ natRepr m) = false := by
  have h1 : ¬('-' : Char) = 'b' := by decide
  have h2 : ¬('-' : Char) = 'B' := by decide
  simp [isBasketFmt, negRepr_data, h1, h2]

/-! ## Claim C10 — basket-identifier normalization -/

/-- C10: `normalize_basket_id` maps `"5"`, `"B000000005"` and the integer 5
to exactly `"B000000005"`; every string whose digits exceed 999999999 or
which matches neither the all-digits form nor `'B'`/`'b'` followed by 1–9
digits fails with a format error, and so does every integer outside
`[0, 999999999]`. -/
theorem normalize_basket_spec :
    normalize_basket_id "5" = .ok "B000000005" ∧
    normalize_basket_id "B000000005" = .ok "B000000005" ∧
    normalize_basket_int 5 = .ok "B000000005" ∧
    (∀ s : String,
      (isDigits (pyStrip s) = true ∧ 999999999 < digitsToNat (pyStrip s)) ∨
        (isDigits (pyStrip s) = false ∧ isBasketFmt (pyStrip s) = false) →
      ∃ e, normalize_basket_id s = .error e) ∧
    (∀ n : Int, (n < 0 ∨ 999999999 < n) → ∃ e, normalize_basket_int n = .error e) := by
  refine ⟨rfl, rfl, rfl, ?_, ?_⟩
  · intro s h
    rcases h with ⟨h1, h2⟩ | ⟨h1, h2⟩
    · exact ⟨"basket number must be 0..999999999",
        by simp [normalize_basket_id, h1, Nat.not_le.mpr h2]⟩
    · exact ⟨"invalid basket id/number format",
        by simp [normalize_basket_id, h1, h2]⟩
  · intro n h
    cases n with
    | ofNat m =>
      rcases h with h | h
      · rw [Int.ofNat_eq_natCast] at h
        exact absurd h (by omega)
      · rw [Int.ofNat_eq_natCast] at h
        have hm : 999999999 < m := by exact_mod_cast h
        refine ⟨"basket number must be 0..999999999", ?_⟩
        show normalize_basket_id (natRepr m) = _
        simp [normalize_basket_id, pyStrip_natRepr, isDigits_natRepr,
          digitsToNat_natRepr, Nat.not_le.mpr hm]
    | negSucc m =>
      refine ⟨"invalid basket id/number format", ?_⟩
      show normalize_basket_id ("-" ++ natRepr (m + 1)) = _
      simp [normalize_basket_id, pyStrip_negRepr, isDigits_negRepr, isBasketFmt_negRepr]

/-- Witness for C10 at the concrete failing inputs `"1000000000"` and `-1`. -/
theorem normalize_basket_spec_witness :
    (∃ e, normalize_basket_id "1000000000" = .error e) ∧
      (∃ e, normalize_basket_int (-1) = .error e) :=
  ⟨normalize_basket_spec.2.2.2.1 "1000000000" (Or.inl (by decide)),
    normalize_basket_spec.2.2.2.2 (-1) (Or.inl (by decide))⟩

/-! ## Claim C3 — command-string encoding -/

/-- C3 counterexample: the encoding of sequence 7, PUT, column 3, row 12,
depth 0, basket `B000000005` is not the spec's literal `"000703120B000000005"`
(that literal is only 19 characters — the zero-padded column `"03"` makes the
real string 20). -/
theorem cmd_encoding_counterexample :
    encode_cmd 7 "PUT" 3 12 0 "B000000005" ≠ "000703120B000000005" ∧
    ("000703120B000000005" : String).length = 19 := by
  refine ⟨by decide, by decide⟩

/-- C3 amended: the example input encodes to `"0007003120B000000005"`, which
has exactly 20 characters; the sequence field always renders to 4 characters
and the method field to one; and any input combination whose encoded string
has a length other than 20 is rejected by the loop and never sent. -/
theorem cmd_encoding_amended :
    encode_cmd 7 "PUT" 3 12 0 "B000000005" = "0007003120B000000005" ∧
    ("0007003120B000000005" : String).length = 20 ∧
    (∀ seq : Nat, (id4 seq).length = 4) ∧
    (∀ methode : String, (methodDigit methode).length = 1) ∧
    (∀ seq methode x y z basket,
      (encode_cmd seq methode x y z basket).length ≠ 20 →
        loop_send seq methode x y z basket = none) := by
  refine ⟨by decide, by decide, ?_, ?_, ?_⟩
  · intro seq
    have hmk : ∀ l : List Char, (String.mk l).length = l.length := fun _ => rfl
    have h0 : "0000".data.length = 4 := rfl
    have he : ("0000" ++ natRepr seq).data = "0000".data ++ (natRepr seq).data := rfl
    unfold id4
    rw [hmk, List.length_reverse, List.length_take, List.length_reverse, he,
      List.length_append, h0]
    omega
  · intro m
    unfold methodDigit
    split <;> rfl
  · intro seq m x y z b h
    simp [loop_send, h]

/-- Witness for C3's rejection clause: column 100 overflows its 2-digit
field, the string has 21 characters, and the loop refuses to send it. -/
theorem cmd_encoding_amended_witness :
    loop_send 0 "PUT" 100 1 0 "B000000001" = none :=
  cmd_encoding_amended.2.2.2.2 0 "PUT" 100 1 0 "B000000001" (by decide)

/-! ## Claim C2 — the clear-request reactor -/

/-- C2: on a poll where the request line is high the reactor's first action
is the unconditional clear-reply pulse; with the lock held it writes no
register and sets the pending flag; with the lock free (try-acquired) it
clears the registers and drops the flag; a pending flag with the line low
is applied as soon as the non-blocking acquire succeeds; the registers are
cleared only under a successful non-blocking acquire, and no blocking
acquire ever appears in the trace. -/
theorem clear_reactor_spec (w : MonWorld) (pending : Bool) :
    (w.reqLine = true →
      (monitor_step w pending).2.head? = some MonEv.pulseClearReply) ∧
    (w.reqLine = true → w.lockFree = false →
      monitor_step w pending =
        (true, [MonEv.pulseClearReply, MonEv.tryAcquire false])) ∧
    (w.reqLine = true → w.lockFree = true →
      monitor_step w pending =
        (false, [MonEv.pulseClearReply, MonEv.tryAcquire true, MonEv.clearRegs,
          MonEv.releaseLock])) ∧
    (w.reqLine = false → pending = true → w.lockFree = true →
      monitor_step w pending =
        (false, [MonEv.tryAcquire true, MonEv.clearRegs, MonEv.releaseLock])) ∧
    (MonEv.clearRegs ∈ (monitor_step w pending).2 → w.lockFree = true) ∧
    MonEv.blockingAcquire ∉ (monitor_step w pending).2 := by
  rcases w with ⟨req, lf⟩
  cases req <;> cases lf <;> cases pending <;> simp [monitor_step]

/-- Witness for C2: request high while a command cycle holds the lock. -/
theorem clear_reactor_spec_witness :
    monitor_step ⟨true, false⟩ false =
      (true, [MonEv.pulseClearReply, MonEv.tryAcquire false]) :=
  (clear_reactor_spec ⟨true, false⟩ false).2.1 rfl rfl

/-! ## Association-list lemmas for the shelf table -/

theorem alookup_updWhere (l : List (Nat × Shelf)) (p : Shelf → Bool) (f : Shelf → Shelf)
    (k : Nat) :
    alookup (updWhere l p f) k
      = (alookup l k).map (fun sh => if p sh then f sh else sh) := by
  induction l with
  | nil => rfl
  | cons q t ih =>
    rcases q with ⟨i, sh⟩
    simp only [updWhere, List.map_cons] at ih ⊢
    by_cases hp : p sh = true
    · rw [if_pos hp]
      by_cases hik : i = k
      · subst hik
        simp [alookup, hp]
      · simp [alookup, hik, ih]
    · rw [if_neg hp]
      by_cases hik : i = k
      · subst hik
        simp [alookup, hp]
      · simp [alookup, hik, ih]

theorem alookup_updKey_self (l : List (Nat × Shelf)) (k : Nat) (f : Shelf → Shelf) :
    alookup (updKey l k f) k = (alookup l k).map f := by
  induction l with
  | nil => rfl
  | cons q t ih =>
    rcases q with ⟨i, sh⟩
    simp only [updKey, List.map_cons] at ih ⊢
    by_cases hik : i = k
    · rw [if_pos hik]
      subst hik
      simp [alookup]
    · rw [if_neg hik]
      simp [alookup, hik, ih]

theorem alookup_updKey_ne (l : List (Nat × Shelf)) (k k' : Nat) (f : Shelf → Shelf)
    (h : k' ≠ k) :
    alookup (updKey l k f) k' = alookup l k' := by
  induction l with
  | nil => rfl
  | cons q t ih =>
    rcases q with ⟨i, sh⟩
    simp only [updKey, List.map_cons] at ih ⊢
    by_cases hik : i = k
    · rw [if_pos hik]
      subst hik
      simp [alookup, Ne.symm h, ih]
    · rw [if_neg hik]
      by_cases hik' : i = k'
      · subst hik'
        simp [alookup]
      · simp [alookup, hik', ih]

/-! ## `move_put` success characterization -/

/-- A successful `move_put` normalized its basket and left the destination
shelf holding it, active. -/
theorem move_put_ok {db : DbState} {s : Nat} {b : String} {ao : Bool} {db' : DbState}
    {r : MoveResult} (h : move_put db s b ao = .ok (db', r)) :
    ∃ na, normalize_basket_id b = .ok na ∧
      ∃ sh, alookup db'.shelves s = some sh ∧ sh.basket_id = some na ∧
        sh.active = true := by
  by_cases hb : b = ""
  · simp [move_put, hb] at h
  cases hn : normalize_basket_id b with
  | error e => simp [move_put, hb, hn] at h
  | ok na =>
    refine ⟨na, rfl, ?_⟩
    cases hl : alookup (updWhere db.shelves (fun q => q.basket_id == some na) clearedShelf)
        s with
    | none => simp [move_put, hb, hn, hl] at h
    | some row =>
      by_cases hd : (row.basket_id.isSome && !(row.basket_id == some na)) = true
      · cases hao : ao with
        | false => simp [move_put, hb, hn, hl, hd, hao] at h
        | true =>
          simp [move_put, hb, hn, hl, hd, hao] at h
          obtain ⟨hdb, hr⟩ := h
          subst hdb
          rw [show ({ db with
              shelves := updKey (updKey (updWhere db.shelves
                (fun q => q.basket_id == some na) clearedShelf) s clearedShelf) s
                (fun q => { q with basket_id := some na, active := true }) } :
                DbState).shelves = updKey (updKey (updWhere db.shelves
                (fun q => q.basket_id == some na) clearedShelf) s clearedShelf) s
                (fun q => { q with basket_id := some na, active := true }) from rfl,
            alookup_updKey_self, alookup_updKey_self, hl]
          exact ⟨_, rfl, rfl, rfl⟩
      · simp [move_put, hb, hn, hl, hd] at h
        obtain ⟨hdb, hr⟩ := h
        subst hdb
        rw [show ({ db with
            shelves := updKey (updWhere db.shelves
              (fun q => q.basket_id == some na) clearedShelf) s
              (fun q => { q with basket_id := some na, active := true }) } :
              DbState).shelves = updKey (updWhere db.shelves
              (fun q => q.basket_id == some na) clearedShelf) s
              (fun q => { q with basket_id := some na, active := true }) from rfl,
          alookup_updKey_self, hl]
        exact ⟨_, rfl, rfl, rfl⟩

/-- A nonempty basket string lies behind every `.ok` result of
`normalize_basket_id`. -/
theorem normalize_ok_ne_empty {b nb : String} (h : normalize_basket_id b = .ok nb) :
    b ≠ "" := by
  intro hb
  subst hb
  rw [show normalize_basket_id ""
      = .error "invalid basket id/number format" from rfl] at h
  exact Except.noConfusion h

/-! ## Claim C4 — conflict rejection rolls the transaction back -/

/-- C4: once `move_put` has placed basket `A` on a shelf, a `move_put` of a
different basket `B` to the same shelf without overwrite fails with the
conflict error, the transaction-visible state is exactly the pre-call state
(so the step-(a) clearing of `B`'s previous shelf is also undone), and the
shelf still holds `A`'s normalized id, active. -/
theorem move_put_conflict_rollback {db db1 : DbState} {s : Nat} {A B na nb : String}
    {r1 : MoveResult}
    (hNA : normalize_basket_id A = .ok na) (hNB : normalize_basket_id B = .ok nb)
    (hne : na ≠ nb) (hA : move_put db s A false = .ok (db1, r1)) :
    move_put db1 s B false = .error "destination occupied (allow_overwrite_dest=False)" ∧
    move_put_state db1 s B false = db1 ∧
    ∃ sh, alookup db1.shelves s = some sh ∧ sh.basket_id = some na ∧
      sh.active = true := by
  obtain ⟨na', hna', sh, hsh, hbask, hact⟩ := move_put_ok hA
  rw [hNA] at hna'
  injection hna' with hee
  subst hee
  have hBne : B ≠ "" := normalize_ok_ne_empty hNB
  have hl : alookup (updWhere db1.shelves (fun q => q.basket_id == some nb) clearedShelf) s
      = some sh := by
    rw [alookup_updWhere, hsh]
    simp [hbask, hne]
  have herr : move_put db1 s B false
      = .error "destination occupied (allow_overwrite_dest=False)" := by
    simp [move_put, hBne, hNB, hl, hbask, hne]
  exact ⟨herr, by simp [move_put_state, herr], sh, hsh, hbask, hact⟩

/-- Witness for C4: after placing `B000000001` on shelf 1 of `wDb0` (where
shelf 2 holds `B000000002`), putting `B000000002` on shelf 1 without
overwrite is rejected. -/
theorem move_put_conflict_rollback_witness :
    move_put wDb1 1 "B000000002" false
      = .error "destination occupied (allow_overwrite_dest=False)" :=
  (@move_put_conflict_rollback wDb0 wDb1 1 "B000000001" "B000000002"
    "B000000001" "B000000002" ⟨[], 1⟩ rfl rfl (by decide) rfl).1

/-! ## Claim C9 — `move_put` is idempotent on a correctly placed basket -/

/-- C9: if `move_put shelf basket` (no overwrite) succeeds, running the same
call again on the resulting state also succeeds — step (a) clears the
basket's own shelf, so the destination check sees an empty shelf — and the
shelf ends up holding the basket's normalized id, active. -/
theorem move_put_idempotent {db db1 : DbState} {s : Nat} {b : String} {r1 : MoveResult}
    (h1 : move_put db s b false = .ok (db1, r1)) :
    ∃ db2 r2, move_put db1 s b false = .ok (db2, r2) ∧
      ∃ na, normalize_basket_id b = .ok na ∧
        ∃ sh, alookup db2.shelves s = some sh ∧ sh.basket_id = some na ∧
          sh.active = true := by
  obtain ⟨na, hna, sh, hsh, hbask, hact⟩ := move_put_ok h1
  have hbne : b ≠ "" := normalize_ok_ne_empty hna
  have hl : alookup (updWhere db1.shelves (fun q => q.basket_id == some na) clearedShelf) s
      = some (clearedShelf sh) := by
    rw [alookup_updWhere, hsh]
    simp [hbask]
  refine ⟨{ db1 with
      shelves := updKey (updWhere db1.shelves (fun q => q.basket_id == some na)
        clearedShelf) s (fun q => { q with basket_id := some na, active := true }) },
    ⟨(db1.shelves.filter (fun q => q.2.basket_id == some na)).map (fun q => q.1), s⟩,
    ?_, na, hna, ?_⟩
  · simp [move_put, hbne, hna, hl, clearedShelf]
  · rw [show ({ db1 with
        shelves := updKey (updWhere db1.shelves (fun q => q.basket_id == some na)
          clearedShelf) s (fun q => { q with basket_id := some na, active := true }) } :
        DbState).shelves = updKey (updWhere db1.shelves
        (fun q => q.basket_id == some na) clearedShelf) s
        (fun q => { q with basket_id := some na, active := true }) from rfl,
      alookup_updKey_self, hl]
    exact ⟨_, rfl, rfl, rfl⟩

/-- Witness for C9: the repeated `move_put` of `B000000001` onto shelf 1. -/
theorem move_put_idempotent_witness :
    ∃ db2 r2, move_put wDb1 1 "B000000001" false = .ok (db2, r2) ∧
      ∃ na, normalize_basket_id "B000000001" = .ok na ∧
        ∃ sh, alookup db2.shelves 1 = some sh ∧ sh.basket_id = some na ∧
          sh.active = true :=
  @move_put_idempotent wDb0 wDb1 1 "B000000001" ⟨[], 1⟩ rfl

/-! ## Claim C8 — the shelf invariant `active == (basket_id != NULL)` -/

theorem all_updKey {l : List (Nat × Shelf)} {f : Shelf → Shelf} {k : Nat}
    (hl : l.all (fun q => shelfInv q.2) = true)
    (hf : ∀ sh, shelfInv (f sh) = true) :
    (updKey l k f).all (fun q => shelfInv q.2) = true := by
  rw [List.all_eq_true] at hl ⊢
  intro q hq
  rcases List.mem_map.mp hq with ⟨p, hp, hpe⟩
  by_cases hk : p.1 = k
  · rw [← hpe, if_pos hk]
    exact hf p.2
  · rw [← hpe, if_neg hk]
    exact hl p hp

theorem all_updWhere {l : List (Nat × Shelf)} {p : Shelf → Bool} {f : Shelf → Shelf}
    (hl : l.all (fun q => shelfInv q.2) = true)
    (hf : ∀ sh, shelfInv (f sh) = true) :
    (updWhere l p f).all (fun q => shelfInv q.2) = true := by
  rw [List.all_eq_true] at hl ⊢
  intro q hq
  rcases List.mem_map.mp hq with ⟨w, hw, hwe⟩
  by_cases hk : p w.2 = true
  · rw [← hwe, if_pos hk]
    exact hf w.2
  · rw [← hwe, if_neg hk]
    exact hl w hw

theorem shelfInv_clearedShelf (sh : Shelf) : shelfInv (clearedShelf sh) = true := rfl

theorem shelfInv_place (na : String) (sh : Shelf) :
    shelfInv { sh with basket_id := some na, active := true } = true := rfl

/-- A committed `move_put` preserves the shelf invariant. -/
theorem dbInv_move_put {db db' : DbState} {s : Nat} {b : String} {ao : Bool}
    {r : MoveResult} (h : move_put db s b ao = .ok (db', r))
    (hinv : dbInv db = true) : dbInv db' = true := by
  by_cases hb : b = ""
  · simp [move_put, hb] at h
  cases hn : normalize_basket_id b with
  | error e => simp [move_put, hb, hn] at h
  | ok na =>
    cases hl : alookup (updWhere db.shelves (fun q => q.basket_id == some na) clearedShelf)
        s with
    | none => simp [move_put, hb, hn, hl] at h
    | some row =>
      have hw : (updWhere db.shelves (fun q => q.basket_id == some na)
          clearedShelf).all (fun q => shelfInv q.2) = true :=
        all_updWhere hinv shelfInv_clearedShelf
      by_cases hd : (row.basket_id.isSome && !(row.basket_id == some na)) = true
      · cases hao : ao with
        | false => simp [move_put, hb, hn, hl, hd, hao] at h
        | true =>
          simp [move_put, hb, hn, hl, hd, hao] at h
          obtain ⟨hdb, hr⟩ := h
          subst hdb
          exact all_updKey (all_updKey hw shelfInv_clearedShelf) (shelfInv_place na)
      · simp [move_put, hb, hn, hl, hd] at h
        obtain ⟨hdb, hr⟩ := h
        subst hdb
        exact all_updKey hw (shelfInv_place na)

/-- C8 counterexample: `mark_shelf_occupied` accepts a NULL basket argument
(Python `None`, or `""`, both falsy) and then writes `basket_id = NULL`
together with `active = TRUE`, breaking the invariant on a state that
satisfied it. -/
theorem shelf_invariant_counterexample :
    dbInv dbC8 = true ∧ dbInv (mark_shelf_occupied dbC8 1 none) = false := by
  exact ⟨rfl, rfl⟩

/-- C8 amended: the invariant is preserved by `move_put` (through the
transaction wrapper), `mark_pick` and `mark_shelf_empty` for all arguments,
and by `mark_shelf_occupied` for every truthy basket argument; the falsy
basket argument of `mark_shelf_occupied` is the one violating case. -/
theorem shelf_invariant_preserved (db : DbState) (s : Nat) (b : String) (ao : Bool)
    (bopt : Option String) (h : dbInv db = true) :
    dbInv (mark_pick db s) = true ∧
    dbInv (mark_shelf_empty db s) = true ∧
    dbInv (move_put_state db s b ao) = true ∧
    (pyTruthyOpt bopt = true → dbInv (mark_shelf_occupied db s bopt) = true) := by
  refine ⟨?_, ?_, ?_, ?_⟩
  · exact all_updKey h shelfInv_clearedShelf
  · exact all_updKey h shelfInv_clearedShelf
  · unfold move_put_state
    cases hm : move_put db s b ao with
    | error e => exact h
    | ok q => exact dbInv_move_put hm h
  · intro ht
    cases bopt with
    | none => exact absurd ht (by decide)
    | some str =>
      have hne : ¬str = "" := by
        intro he
        subst he
        exact absurd ht (by decide)
      show (updKey db.shelves s
        (fun sh => { sh with basket_id := pyStripOpt (some str), active := true })).all
          (fun q => shelfInv q.2) = true
      refine all_updKey h ?_
      intro sh
      simp [pyStripOpt, hne, shelfInv]

/-- Witness for C8's amended preservation at a concrete state and truthy
basket. -/
theorem shelf_invariant_preserved_witness :
    dbInv (mark_shelf_occupied dbC8 1 (some "B000000007")) = true :=
  (shelf_invariant_preserved dbC8 1 "B000000007" false (some "B000000007") rfl).2.2.2
    (by decide)

/-! ## Scheduler scan characterization -/

theorem eligible_mapping {db : DbState} {r : QueueRow} (h : eligible db r = true) :
    ∃ m, get_mapping_for_basket db r.basket = some m ∧ shelf_can_use db m.1 = true := by
  unfold eligible at h
  cases hm : get_mapping_for_basket db r.basket with
  | none => rw [hm] at h; cases h
  | some m => rw [hm] at h; exact ⟨m, rfl, h⟩

/-- The scan's candidate is the first eligible row, paired with its
mapping. -/
theorem first_usable_fst (db : DbState) (jobs : List QueueRow) :
    (first_usable db jobs).1 = (jobs.find? (eligible db)).bind
      (fun r => (get_mapping_for_basket db r.basket).map (fun m => (r, m))) := by
  induction jobs with
  | nil => rfl
  | cons r rest ih =>
    cases hm : get_mapping_for_basket db r.basket with
    | none =>
      have he : ¬eligible db r = true := by simp [eligible, hm]
      simp [first_usable, hm, List.find?_cons_of_neg _ he, ih]
    | some m =>
      cases hcu : shelf_can_use db m.1 with
      | true =>
        have he : eligible db r = true := by simp [eligible, hm, hcu]
        simp [first_usable, hm, hcu, List.find?_cons_of_pos _ he]
      | false =>
        have he : ¬eligible db r = true := by simp [eligible, hm, hcu]
        simp [first_usable, hm, hcu, List.find?_cons_of_neg _ he, ih]

/-- The ids deleted by the scan are exactly the ids of the mapping-less rows
scanned before the candidate (the whole list when there is none). -/
theorem first_usable_dels (db : DbState) (jobs : List QueueRow) :
    (first_usable db jobs).2
      = ((jobs.takeWhile (fun r => !eligible db r)).filter
          (fun r => (get_mapping_for_basket db r.basket).isNone)).map
            (fun r => r.id) := by
  induction jobs with
  | nil => rfl
  | cons r rest ih =>
    cases hm : get_mapping_for_basket db r.basket with
    | none =>
      have he : (!eligible db r) = true := by simp [eligible, hm]
      simp [first_usable, hm, List.takeWhile_cons, he, ih]
    | some m =>
      cases hcu : shelf_can_use db m.1 with
      | true =>
        have he : (!eligible db r) = false := by simp [eligible, hm, hcu]
        simp [first_usable, hm, hcu, List.takeWhile_cons, he]
      | false =>
        have he : (!eligible db r) = true := by simp [eligible, hm, hcu]
        simp [first_usable, hm, hcu, List.takeWhile_cons, he, hm, ih]

/-! ## Claim C5 — FIFO merge of the two candidates -/

/-- C5: when both windows have a candidate (the first eligible row of each
queue in creation order), `select_next` returns the one created earlier,
the PICK one on an exact tie; with a single candidate that candidate wins;
with none it returns the no-job triple (a total function — no error). -/
theorem select_next_order (db : DbState) (wnd : Nat) :
    (∀ p q, pickCandidate db wnd = some p → putCandidate db wnd = some q →
      (select_next db wnd).1.map (fun t => (t.1, t.2.1)) =
        some (if p.created_at ≤ q.created_at then ("PICK", p) else ("PUT", q))) ∧
    (∀ p, pickCandidate db wnd = some p → putCandidate db wnd = none →
      (select_next db wnd).1.map (fun t => (t.1, t.2.1)) = some ("PICK", p)) ∧
    (∀ q, putCandidate db wnd = some q → pickCandidate db wnd = none →
      (select_next db wnd).1.map (fun t => (t.1, t.2.1)) = some ("PUT", q)) ∧
    (pickCandidate db wnd = none → putCandidate db wnd = none →
      (select_next db wnd).1 = none) := by
  refine ⟨?_, ?_, ?_, ?_⟩
  · intro p q hp hq
    unfold pickCandidate at hp
    unfold putCandidate at hq
    obtain ⟨pm, hpm, _⟩ := eligible_mapping (List.find?_some hp)
    obtain ⟨qm, hqm, _⟩ := eligible_mapping (List.find?_some hq)
    have h1 : (first_usable db (db.queue_pick.take wnd)).1 = some (p, pm) := by
      rw [first_usable_fst, hp]
      simp [hpm]
    have h2 : (first_usable db (db.queue_put.take wnd)).1 = some (q, qm) := by
      rw [first_usable_fst, hq]
      simp [hqm]
    by_cases hle : p.created_at ≤ q.created_at <;> simp [select_next, h1, h2, hle]
  · intro p hp hq
    unfold pickCandidate at hp
    unfold putCandidate at hq
    obtain ⟨pm, hpm, _⟩ := eligible_mapping (List.find?_some hp)
    have h1 : (first_usable db (db.queue_pick.take wnd)).1 = some (p, pm) := by
      rw [first_usable_fst, hp]
      simp [hpm]
    have h2 : (first_usable db (db.queue_put.take wnd)).1 = none := by
      rw [first_usable_fst, hq]
      rfl
    simp [select_next, h1, h2]
  · intro q hq hp
    unfold pickCandidate at hp
    unfold putCandidate at hq
    obtain ⟨qm, hqm, _⟩ := eligible_mapping (List.find?_some hq)
    have h1 : (first_usable db (db.queue_pick.take wnd)).1 = none := by
      rw [first_usable_fst, hp]
      rfl
    have h2 : (first_usable db (db.queue_put.take wnd)).1 = some (q, qm) := by
      rw [first_usable_fst, hq]
      simp [hqm]
    simp [select_next, h1, h2]
  · intro hp hq
    unfold pickCandidate at hp
    unfold putCandidate at hq
    have h1 : (first_usable db (db.queue_pick.take wnd)).1 = none := by
      rw [first_usable_fst, hp]
      rfl
    have h2 : (first_usable db (db.queue_put.take wnd)).1 = none := by
      rw [first_usable_fst, hq]
      rfl
    simp [select_next, h1, h2]

/-- Witness for C5: a pick row at t=1 and a put row at t=2, both eligible;
the pick row wins. -/
theorem select_next_order_witness :
    (select_next wDb5 20).1.map (fun t => (t.1, t.2.1)) =
      some ("PICK", wRowPick) :=
  (select_next_order wDb5 20).1 wRowPick wRowPut rfl rfl

/-! ## Queue-deletion bookkeeping -/

theorem delete_queue_row_pick (db : DbState) (i : Nat) :
    delete_queue_row db "PICK" i
      = { db with queue_pick := db.queue_pick.filter (fun r => r.id != i) } := rfl

theorem delete_queue_row_put (db : DbState) (i : Nat) :
    delete_queue_row db "PUT" i
      = { db with queue_put := db.queue_put.filter (fun r => r.id != i) } := by
  unfold delete_queue_row
  rw [if_neg (by decide)]

theorem applyDeletes_pick_mem (ids : List Nat) : ∀ (db : DbState) (r : QueueRow),
    r ∈ (applyDeletes db "PICK" ids).queue_pick ↔
      r ∈ db.queue_pick ∧ ¬r.id ∈ ids := by
  induction ids with
  | nil => intro db r; simp [applyDeletes]
  | cons i t ih =>
    intro db r
    rw [show applyDeletes db "PICK" (i :: t)
        = applyDeletes (delete_queue_row db "PICK" i) "PICK" t from rfl, ih]
    constructor
    · rintro ⟨hr, hni⟩
      rw [delete_queue_row_pick] at hr
      rcases List.mem_filter.mp hr with ⟨hmem, hid⟩
      refine ⟨hmem, ?_⟩
      simp at hid
      simp [hni, hid]
    · rintro ⟨hmem, hni⟩
      have hid : ¬r.id = i := fun he => hni (by simp [he])
      have hnt : ¬r.id ∈ t := fun hh => hni (by simp [hh])
      exact ⟨by
        rw [delete_queue_row_pick]
        exact List.mem_filter.mpr ⟨hmem, by simp [hid]⟩, hnt⟩

theorem applyDeletes_put_mem (ids : List Nat) : ∀ (db : DbState) (r : QueueRow),
    r ∈ (applyDeletes db "PUT" ids).queue_put ↔
      r ∈ db.queue_put ∧ ¬r.id ∈ ids := by
  induction ids with
  | nil => intro db r; simp [applyDeletes]
  | cons i t ih =>
    intro db r
    rw [show applyDeletes db "PUT" (i :: t)
        = applyDeletes (delete_queue_row db "PUT" i) "PUT" t from rfl, ih]
    constructor
    · rintro ⟨hr, hni⟩
      rw [delete_queue_row_put] at hr
      rcases List.mem_filter.mp hr with ⟨hmem, hid⟩
      refine ⟨hmem, ?_⟩
      simp at hid
      simp [hni, hid]
    · rintro ⟨hmem, hni⟩
      have hid : ¬r.id = i := fun he => hni (by simp [he])
      have hnt : ¬r.id ∈ t := fun hh => hni (by simp [hh])
      exact ⟨by
        rw [delete_queue_row_put]
        exact List.mem_filter.mpr ⟨hmem, by simp [hid]⟩, hnt⟩

theorem applyDeletes_pick_queue_put (ids : List Nat) : ∀ db : DbState,
    (applyDeletes db "PICK" ids).queue_put = db.queue_put := by
  induction ids with
  | nil => intro db; rfl
  | cons i t ih =>
    intro db
    rw [show applyDeletes db "PICK" (i :: t)
        = applyDeletes (delete_queue_row db "PICK" i) "PICK" t from rfl, ih,
      delete_queue_row_pick]

theorem applyDeletes_put_queue_pick (ids : List Nat) : ∀ db : DbState,
    (applyDeletes db "PUT" ids).queue_pick = db.queue_pick := by
  induction ids with
  | nil => intro db; rfl
  | cons i t ih =>
    intro db
    rw [show applyDeletes db "PUT" (i :: t)
        = applyDeletes (delete_queue_row db "PUT" i) "PUT" t from rfl, ih,
      delete_queue_row_put]

/-- The state produced by `select_next` is the input state after the two
scans' garbage deletions, whatever candidate was returned. -/
theorem select_next_snd (db : DbState) (wnd : Nat) :
    (select_next db wnd).2 = applyDeletes (applyDeletes db "PICK"
      (first_usable db (db.queue_pick.take wnd)).2) "PUT"
      (first_usable db (db.queue_put.take wnd)).2 := by
  rcases h1 : (first_usable db (db.queue_pick.take wnd)).1 with _ | ⟨p, pm⟩ <;>
    rcases h2 : (first_usable db (db.queue_put.take wnd)).1 with _ | ⟨q, qm⟩ <;>
      simp [select_next, h1, h2]
  split <;> rfl

/-- A returned candidate always carries its mapping and a usable shelf. -/
theorem select_next_some {db : DbState} {wnd : Nat}
    {t : String × QueueRow × (Nat × Nat × Nat × Nat)}
    (h : (select_next db wnd).1 = some t) :
    get_mapping_for_basket db t.2.1.basket = some t.2.2 ∧
      shelf_can_use db t.2.2.1 = true := by
  have hps : ∀ (r : QueueRow) (m : Nat × Nat × Nat × Nat) (jobs : List QueueRow),
      (first_usable db jobs).1 = some (r, m) →
        get_mapping_for_basket db r.basket = some m ∧ shelf_can_use db m.1 = true := by
    intro r m jobs hfu
    rw [first_usable_fst] at hfu
    cases hf : jobs.find? (eligible db) with
    | none => rw [hf] at hfu; cases hfu
    | some r' =>
      rw [hf] at hfu
      obtain ⟨m', hm', hcu⟩ := eligible_mapping (List.find?_some hf)
      simp [hm'] at hfu
      obtain ⟨rfl, rfl⟩ := hfu
      exact ⟨hm', hcu⟩
  rcases h1 : (first_usable db (db.queue_pick.take wnd)).1 with _ | ⟨p, pm⟩ <;>
    rcases h2 : (first_usable db (db.queue_put.take wnd)).1 with _ | ⟨q, qm⟩
  · simp [select_next, h1, h2] at h
  · simp [select_next, h1, h2] at h
    subst h
    exact hps q qm _ h2
  · simp [select_next, h1, h2] at h
    subst h
    exact hps p pm _ h1
  · simp [select_next, h1, h2] at h
    by_cases hle : p.created_at ≤ q.created_at
    · rw [if_pos hle] at h
      simp at h
      subst h
      exact hps p pm _ h1
    · rw [if_neg hle] at h
      simp at h
      subst h
      exact hps q qm _ h2

/-! ## Claim C6 — garbage rows pruned, unusable rows left in place -/

/-- C6: over the scanned part of each 20-row window (the rows before the
first eligible one), every row with no mapping is deleted from its queue;
every row with a mapping — in particular one whose mapped shelf is merely
unusable — stays in its queue untouched; and a returned candidate always
has a mapping with a usable shelf, on this state and hence on every later
one (the statement is universal over `db`), so a mapping-less row is never
returned.  Queue ids are assumed distinct, as for a primary-key column. -/
theorem select_next_self_heal (db : DbState) (wnd : Nat)
    (hnp : (db.queue_pick.map (fun r => r.id)).Nodup)
    (hnq : (db.queue_put.map (fun r => r.id)).Nodup) :
    (∀ r ∈ (db.queue_pick.take wnd).takeWhile (fun r => !eligible db r),
      get_mapping_for_basket db r.basket = none →
        r ∉ (select_next db wnd).2.queue_pick) ∧
    (∀ r ∈ (db.queue_put.take wnd).takeWhile (fun r => !eligible db r),
      get_mapping_for_basket db r.basket = none →
        r ∉ (select_next db wnd).2.queue_put) ∧
    (∀ r ∈ db.queue_pick, (get_mapping_for_basket db r.basket).isSome = true →
      r ∈ (select_next db wnd).2.queue_pick) ∧
    (∀ r ∈ db.queue_put, (get_mapping_for_basket db r.basket).isSome = true →
      r ∈ (select_next db wnd).2.queue_put) ∧
    (∀ t, (select_next db wnd).1 = some t →
      get_mapping_for_basket db t.2.1.basket = some t.2.2 ∧
        shelf_can_use db t.2.2.1 = true) := by
  have hsnd := select_next_snd db wnd
  have hpickmem : ∀ r : QueueRow, r ∈ (select_next db wnd).2.queue_pick ↔
      r ∈ db.queue_pick ∧ ¬r.id ∈ (first_usable db (db.queue_pick.take wnd)).2 := by
    intro r
    rw [hsnd, applyDeletes_put_queue_pick, applyDeletes_pick_mem]
  have hputmem : ∀ r : QueueRow, r ∈ (select_next db wnd).2.queue_put ↔
      r ∈ db.queue_put ∧ ¬r.id ∈ (first_usable db (db.queue_put.take wnd)).2 := by
    intro r
    rw [hsnd, applyDeletes_put_mem, applyDeletes_pick_queue_put]
  refine ⟨?_, ?_, ?_, ?_, fun t ht => select_next_some ht⟩
  · intro r hr hm
    rw [hpickmem]
    rintro ⟨hmem, hdel⟩
    apply hdel
    rw [first_usable_dels]
    refine List.mem_map.mpr ⟨r, List.mem_filter.mpr ⟨hr, by simp [hm]⟩, rfl⟩
  · intro r hr hm
    rw [hputmem]
    rintro ⟨hmem, hdel⟩
    apply hdel
    rw [first_usable_dels]
    refine List.mem_map.mpr ⟨r, List.mem_filter.mpr ⟨hr, by simp [hm]⟩, rfl⟩
  · intro r hr hm
    rw [hpickmem]
    refine ⟨hr, ?_⟩
    intro hdel
    rw [first_usable_dels] at hdel
    rcases List.mem_map.mp hdel with ⟨g, hg, hgid⟩
    rcases List.mem_filter.mp hg with ⟨hgw, hgnone⟩
    have hgmem : g ∈ db.queue_pick :=
      List.take_subset wnd db.queue_pick (List.takeWhile_subset _ hgw)
    have hge : g = r := List.inj_on_of_nodup_map hnp hgmem hr hgid
    rw [hge] at hgnone
    cases hmm : get_mapping_for_basket db r.basket with
    | none => rw [hmm] at hm; cases hm
    | some m => rw [hmm] at hgnone; cases hgnone
  · intro r hr hm
    rw [hputmem]
    refine ⟨hr, ?_⟩
    intro hdel
    rw [first_usable_dels] at hdel
    rcases List.mem_map.mp hdel with ⟨g, hg, hgid⟩
    rcases List.mem_filter.mp hg with ⟨hgw, hgnone⟩
    have hgmem : g ∈ db.queue_put :=
      List.take_subset wnd db.queue_put (List.takeWhile_subset _ hgw)
    have hge : g = r := List.inj_on_of_nodup_map hnq hgmem hr hgid
    rw [hge] at hgnone
    cases hmm : get_mapping_for_basket db r.basket with
    | none => rw [hmm] at hm; cases hm
    | some m => rw [hmm] at hgnone; cases hgnone

/-- Witness for C6: the unmapped row is gone from the queue after the
scan. -/
theorem select_next_self_heal_witness :
    wRowGarbage ∉ (select_next wDb6 20).2.queue_pick :=
  (select_next_self_heal wDb6 20 (by decide) (by decide)).1 wRowGarbage
    (by decide) rfl

/-! ## Claim C1 — delete on ACK, commit after, success fixed at the commit -/

/-- C1 counterexample: the ack line goes true within the wait, but the
unguarded strobe-drop write just after ACK raises: the call escapes with the
exception instead of returning a boolean, and no occupancy commit is
performed — the claim's guarantees fail on this execution. -/
theorem send_ack_commit_counterexample :
    (send_job_blocking wAckDropFail wDb5 "c" "PUT" 1 "B000000001" 1).ret
        = .error DevErr.writeRaised ∧
    (∀ b, Ev.commitOccupancy "PUT" b ∉
      (send_job_blocking wAckDropFail wDb5 "c" "PUT" 1 "B000000001" 1).events) := by
  refine ⟨rfl, by decide⟩

/-- On the ACK path the call returns the commit outcome and the
committed state. -/
theorem send_job_ack_ret_db (w : SendWorld) (db : DbState) (cmd methode : String)
    (rid : Nat) (rb : String) (sid : Nat)
    (hready : system_ready w = true) (hclear : (clearPhase w).1 = true)
    (hcw : w.cmdWriteOk = true) (hack : w.ackOk = true)
    (hdrop : w.dropStrobeAfterAckOk = true) :
    (send_job_blocking w db cmd methode rid rb sid).ret
      = .ok (commitStep (delete_queue_row db methode rid) methode sid (pyStrip rb)).1 ∧
    (send_job_blocking w db cmd methode rid rb sid).db
      = (commitStep (delete_queue_row db methode rid) methode sid (pyStrip rb)).2 := by
  constructor <;> simp [send_job_blocking, hready, hclear, hcw, hack, hdrop]

/-- C1 amended: in every execution that reaches the ACK wait and in which
ACK arrives — and in which the strobe-drop write just after ACK does not
itself raise — the queue-row delete is issued immediately on ACK, strictly
before the occupancy commit (`move_put` for PUT, `mark_pick` otherwise);
the returned boolean and the `success` field of the completion callback
both equal the outcome of that commit alone; and a later completion
timeout changes neither the returned value nor the database state. -/
theorem send_ack_commit (w : SendWorld) (db : DbState) (cmd methode : String)
    (rid : Nat) (rb : String) (sid : Nat)
    (hready : system_ready w = true) (hclear : (clearPhase w).1 = true)
    (hcw : w.cmdWriteOk = true) (hack : w.ackOk = true)
    (hdrop : w.dropStrobeAfterAckOk = true) :
    (send_job_blocking w db cmd methode rid rb sid).ret
      = .ok (commitStep (delete_queue_row db methode rid) methode sid (pyStrip rb)).1 ∧
    (send_job_blocking w db cmd methode rid rb sid).db
      = (commitStep (delete_queue_row db methode rid) methode sid (pyStrip rb)).2 ∧
    (∃ pre post,
      (send_job_blocking w db cmd methode rid rb sid).events
        = pre ++ Ev.deleteQueueRow methode rid :: Ev.dropStrobe ::
            Ev.commitOccupancy methode
              (commitStep (delete_queue_row db methode rid) methode sid (pyStrip rb)).1
            :: post ∧
      Ev.callback (pyLower methode) (pyStrip rb)
        (commitStep (delete_queue_row db methode rid) methode sid (pyStrip rb)).1
          ∈ post) ∧
    (∀ b,
      (send_job_blocking { w with completeDone := b } db cmd methode rid rb sid).ret
        = (send_job_blocking w db cmd methode rid rb sid).ret ∧
      (send_job_blocking { w with completeDone := b } db cmd methode rid rb sid).db
        = (send_job_blocking w db cmd methode rid rb sid).db) := by
  refine ⟨?_, ?_, ?_, ?_⟩
  · exact (send_job_ack_ret_db w db cmd methode rid rb sid hready hclear hcw hack
      hdrop).1
  · exact (send_job_ack_ret_db w db cmd methode rid rb sid hready hclear hcw hack
      hdrop).2
  · refine ⟨(clearPhase w).2 ++ [Ev.writeCmd cmd, Ev.raiseStrobe],
      Ev.serveQr ::
        ((if w.completeDone then [Ev.pulseCompleteReply, Ev.clearRegs] else []) ++
          [Ev.pulseCompleteReply, Ev.clearRegs, Ev.pulseCompleteReply,
            Ev.callback (pyLower methode) (pyStrip rb)
              (commitStep (delete_queue_row db methode rid) methode sid
                (pyStrip rb)).1]), ?_, ?_⟩
    · simp [send_job_blocking, hready, hclear, hcw, hack, hdrop]
    · by_cases hb : w.completeDone <;> simp [hb]
  · intro b
    have hu := send_job_ack_ret_db { w with completeDone := b } db cmd methode rid
      rb sid hready hclear hcw hack hdrop
    have hw := send_job_ack_ret_db w db cmd methode rid rb sid hready hclear hcw
      hack hdrop
    exact ⟨hu.1.trans hw.1.symm, hu.2.trans hw.2.symm⟩

/-- Witness for C1 at a PICK cycle in the all-good world: the commit is a
`mark_pick` and the call reports its success. -/
theorem send_ack_commit_witness :
    (send_job_blocking wHappy wDb5 "c" "PICK" 1 "B000000001" 1).ret = .ok true :=
  (send_ack_commit wHappy wDb5 "c" "PICK" 1 "B000000001" 1 rfl rfl rfl rfl rfl).1

/-! ## Claim C7 — refusal when not ready; booleans on abort paths -/

/-- C7 counterexample: the ACK wait times out and the unguarded strobe-drop
write on that path raises — the exception propagates out of the call, so not
every abort path returns a boolean. -/
theorem send_bool_counterexample :
    (send_job_blocking wAckTimeoutDropFail wDb5 "c" "PUT" 1 "B000000001" 1).ret
      = .error DevErr.writeRaised := rfl

/-- C7 amended: when the device does not report `ready ∧ auto ∧ ¬alarm` the
cycle is refused immediately — `False` is returned with the state untouched
and no device action at all (no command string, no register write, no
retry); and every abort path returns a boolean provided the two unguarded
strobe-drop writes (`n_send.set_value(False)` after the ACK wait) do not
raise — if one raises, the exception escapes, as the counterexample shows. -/
theorem send_refusal_and_bool (w : SendWorld) (db : DbState) (cmd methode : String)
    (rid : Nat) (rb : String) (sid : Nat) :
    ((w.ready && w.auto && !w.alarm) = false →
      send_job_blocking w db cmd methode rid rb sid = ⟨.ok false, db, []⟩) ∧
    (w.dropStrobeOnTimeoutOk = true → w.dropStrobeAfterAckOk = true →
      ∃ b, (send_job_blocking w db cmd methode rid rb sid).ret = .ok b) := by
  constructor
  · intro h
    have hsr : system_ready w = false := by
      unfold system_ready
      rw [h, Bool.and_false]
    simp [send_job_blocking, hsr]
  · intro h1 h2
    cases hsr : system_ready w with
    | false => exact ⟨false, by simp [send_job_blocking, hsr]⟩
    | true =>
      cases hclr : (clearPhase w).1 with
      | false => exact ⟨false, by simp [send_job_blocking, hsr, hclr]⟩
      | true =>
        cases hcw : w.cmdWriteOk with
        | false => exact ⟨false, by simp [send_job_blocking, hsr, hclr, hcw]⟩
        | true =>
          cases hack : w.ackOk with
          | false =>
            exact ⟨false, by simp [send_job_blocking, hsr, hclr, hcw, hack, h1]⟩
          | true =>
            exact ⟨(commitStep (delete_queue_row db methode rid) methode sid
                (pyStrip rb)).1,
              by simp [send_job_blocking, hsr, hclr, hcw, hack, h2]⟩

/-- Witness for C7's refusal clause: ready is low, the call returns `False`
without touching anything. -/
theorem send_refusal_and_bool_witness :
    send_job_blocking wNotReady wDb5 "c" "PUT" 1 "B000000001" 1
      = ⟨.ok false, wDb5, []⟩ :=
  (send_refusal_and_bool wNotReady wDb5 "c" "PUT" 1 "B000000001" 1).1 rfl

end Asrs
